import Mathlib

/-!
Shallow embedding of the Sequencing-Data-Manager core scanner
(`src/portable_seqmanager3/app/backend/scanner.py`, plus the legacy sampled
hash of `src/code/file_scanner.py`), and proofs checking the natural-language
specification against it.

Modelling conventions:
* File bytes are `Nat` values; a file's contents are a `List Nat`.
* The filesystem snapshot seen by one scan is a `FileSystem`: a root flag pair
  (does the root path exist, is it a directory) and the regular files that
  `os.walk` would enumerate beneath a directory root.  `os.walk` over an
  existing path that is not a directory yields no entries.
* Per-file I/O outcomes are explicit booleans on each file: `statOk` (the
  `p.stat()` call in the walk loop), `readOk` (the `open`/`read` inside
  `sniff_header`), `sampledOk` (the `stat`/`open`/`read` inside
  `sampled_fingerprint`), `streamOk` (the `open`/`read` inside `stream_hash`).
  A failing operation corresponds to the Python exception path.
* The MD5 and SHA-256 digests are abstracted as parameters
  `md5M shaM : List Nat → Nat` applied to exactly the byte sequence the
  Python code feeds into the hasher; the code treats digests as opaque keys,
  so theorems quantify over the digest functions.  The Python sentinel bucket
  string `"ERR"` (never a 32-hex digest) is modelled by `none : Option Nat`.
* `time.perf_counter` and the psutil CPU/RSS samples are environment inputs,
  packaged as a `TimingInput` argument of one run.
* Re-opening a file by its `FileMeta.path` is modelled by carrying the
  corresponding `FSFile` through the pipeline (each path denotes one file in
  the snapshot).
-/

/-- One regular file of the scanned snapshot, with the outcome of each
possible I/O operation on it. -/
structure FSFile where
  path : String
  content : List Nat
  mtime_ns : Nat
  statOk : Bool
  readOk : Bool
  sampledOk : Bool
  streamOk : Bool
deriving DecidableEq, Repr

/-- The filesystem as seen by `scan_directory`: whether the canonicalized root
exists, whether it is a directory, and the regular files enumerated beneath it
when it is one. -/
structure FileSystem where
  rootExists : Bool
  rootIsDir : Bool
  files : List FSFile
deriving DecidableEq, Repr

/-- Environmental inputs of one run: the wall-clock delta measured by
`time.perf_counter` and the per-directory psutil CPU / RSS samples. -/
structure TimingInput where
  wall_clock : Nat
  cpu_samples : List Nat
  rss_samples : List Nat
deriving DecidableEq, Repr

/-- `FileMeta` dataclass of scanner.py. -/
structure FileMeta where
  path : String
  size : Nat
  mtime_ns : Nat
  header_type : String
  ext_full : String
  ext_container : String
  ext_logical : String
deriving DecidableEq, Repr

/-- One entry of the report's `files[]` list (the dict built at scanner.py
lines 310-317; it drops `mtime_ns` and renames the extension fields). -/
structure FileRec where
  path : String
  size : Nat
  header_type : String
  extension : String
  extension_container : String
  extension_logical : String
deriving DecidableEq, Repr

/-- One entry of `duplicate_groups`. -/
structure DupGroup where
  sha256 : Nat
  total_size : Nat
  count : Nat
  files : List String
deriving DecidableEq, Repr

/-- One entry of `mismatches`. -/
structure Mismatch where
  path : String
  extension : String
  extension_container : String
  extension_logical : String
  header_type : String
deriving DecidableEq, Repr

/-- One entry of `erasable_candidates`. -/
structure Candidate where
  path : String
  reason : String
  fidelity : String
  depends_on : List String
  regen_cmd : String
deriving DecidableEq, Repr

/-- `ScanStats` dataclass. -/
structure ScanStats where
  wall_clock_s : Nat
  cpu_avg : Option Nat
  cpu_peak : Option Nat
  peak_rss_mb : Option Nat
deriving DecidableEq, Repr

/-- The report dict returned by `scan_directory`. -/
structure Report where
  n_files : Nat
  stats : ScanStats
  mismatches : List Mismatch
  files : List FileRec
  duplicate_groups : List DupGroup
  erasable_candidates : List Candidate
deriving DecidableEq, Repr

/-- The only fatal error of `scan_directory`: the `FileNotFoundError` raised
when the root does not exist (spec name: RootMissing). -/
inductive ScanError where
  | rootMissing
deriving DecidableEq, Repr

/-- Does `hay` start with `pat`?  (`bytes.startswith` / list matching.) -/
def startsWithL [BEq α] : List α → List α → Bool
  | _, [] => true
  | [], _ :: _ => false
  | b :: hs, a :: ps => a == b && startsWithL hs ps

/-- Substring containment, as Python's `pat in hay` on bytes or str. -/
def containsSub [BEq α] (hay pat : List α) : Bool :=
  match hay with
  | [] => pat.isEmpty
  | _ :: t => startsWithL hay pat || containsSub t pat

/-- Python `pat in hay` on strings. -/
def containsStr (hay pat : String) : Bool :=
  containsSub hay.toList pat.toList

/-- `str.upper()` (ASCII). -/
def strUpper (s : String) : String :=
  String.mk (s.toList.map Char.toUpper)

/-- `str.lower()` (ASCII). -/
def strLower (s : String) : String :=
  String.mk (s.toList.map Char.toLower)

/-- `str.endswith(suf)`. -/
def endsWithStr (s suf : String) : Bool :=
  startsWithL s.toList.reverse suf.toList.reverse

/-- Helper of `splitOnChar`. -/
def splitOnCharAux (sep : Char) : List Char → List Char → List String
  | [], acc => [String.mk acc.reverse]
  | c :: cs, acc =>
    if c = sep then String.mk acc.reverse :: splitOnCharAux sep cs []
    else splitOnCharAux sep cs (c :: acc)

/-- `str.split(sep)` for a one-character separator. -/
def splitOnChar (sep : Char) (s : String) : List String :=
  splitOnCharAux sep s.toList []

/-- Helper of `splitPred`. -/
def splitPredAux (p : Char → Bool) : List Char → List Char → List String
  | [], acc => [String.mk acc.reverse]
  | c :: cs, acc =>
    if p c then String.mk acc.reverse :: splitPredAux p cs []
    else splitPredAux p cs (c :: acc)

/-- Split a string at every character satisfying `p` (used for the
`re.split` over `[.\-_]`, whose empty pieces the caller filters out). -/
def splitPred (p : Char → Bool) (s : String) : List String :=
  splitPredAux p s.toList []

/-- Concatenate with a separator (`sep.join(parts)`). -/
def joinWith (sep : String) : List String → String
  | [] => ""
  | [s] => s
  | s :: rest => s ++ sep ++ joinWith sep rest

instance [DecidableEq ε] [DecidableEq α] : DecidableEq (Except ε α) := fun a b =>
  match a, b with
  | .error e1, .error e2 =>
    if h : e1 = e2 then isTrue (by rw [h]) else isFalse (by intro hc; cases hc; exact h rfl)
  | .ok v1, .ok v2 =>
    if h : v1 = v2 then isTrue (by rw [h]) else isFalse (by intro hc; cases hc; exact h rfl)
  | .error _, .ok _ => isFalse (by intro hc; cases hc)
  | .ok _, .error _ => isFalse (by intro hc; cases hc)

/-- `_norm_container` (scanner.py lines 16-18): uppercase, then map the
gz/bgz aliases to canonical names, leaving anything else as uppercased. -/
def normContainer (s : String) : String :=
  let u := strUpper s
  if u == "GZ" || u == "GZIP" then "GZIP"
  else if u == "BGZ" || u == "BGZF" then "BGZF"
  else u

/-- `BIO_CONTAINERS` (scanner.py line 13). -/
def BIO_CONTAINERS : List String := ["GZIP", "BGZF"]

/-- `BIO_LOGICAL` (scanner.py line 14). -/
def BIO_LOGICAL : List String := ["BAM", "CRAM", "BCF", "VCF", "SAM", "FASTQ", "FASTA"]

/-- `PREFER_SRA_OVER_FASTQ` policy constant (scanner.py line 21). -/
def PREFER_SRA_OVER_FASTQ : Bool := false

/-- `ALLOW_SAM_REGEN` policy constant (scanner.py line 22). -/
def ALLOW_SAM_REGEN : Bool := true

/-- `Path(p).name`: the part of the path after the last slash. -/
def basenameOf (p : String) : String :=
  (splitOnChar '/' p).getLastD p

/-- Python `str.lstrip(".")`. -/
def lstripDot (s : String) : String :=
  String.mk (s.toList.dropWhile (fun c => c == '.'))

/-- `pathlib.PurePath.suffixes` of a basename: empty for a name ending in a
dot; otherwise strip leading dots, split the rest on `.`, and return every
piece after the first, each with its leading dot. -/
def suffixesOf (name : String) : List String :=
  if endsWithStr name "." then []
  else (splitOnChar '.' (lstripDot name)).tail.map (fun s => "." ++ s)

/-- The dict `logical_map` of `_normalize_extensions` as a total lookup whose
default is the empty string (the code only consults it with the default
branch unreachable or defaulting to `""`). -/
def logicalMapGet (s : String) : String :=
  if s == "bam" then "BAM"
  else if s == "cram" then "CRAM"
  else if s == "bcf" then "BCF"
  else if s == "vcf" then "VCF"
  else if s == "sam" then "SAM"
  else if s == "fastq" then "FASTQ"
  else if s == "fq" then "FASTQ"
  else if s == "fasta" then "FASTA"
  else if s == "fa" then "FASTA"
  else ""

/-- The tuple of logical-extension keys tested by the `elif` at
scanner.py line 108. -/
def logicalKeys : List String := ["bam", "cram", "bcf", "vcf", "sam", "fastq", "fq", "fasta", "fa"]

/-- `SequencingFileScanner._normalize_extensions` (scanner.py lines 90-122):
returns `(ext_full, ext_container, ext_logical)`. -/
def normalizeExt (p : String) : String × String × String :=
  let suffixes := (suffixesOf (basenameOf p)).map (fun s => strLower (lstripDot s))
  let ext_full := joinWith "." suffixes
  match suffixes.getLast? with
  | none => (ext_full, normContainer "", "")
  | some last =>
    let container :=
      if last == "gz" || last == "gzip" then "GZIP"
      else if last == "bgz" || last == "bgzf" then "BGZF"
      else ""
    let logical :=
      if container == "" && logicalKeys.contains last then logicalMapGet last else ""
    if container != "" && 2 ≤ suffixes.length then
      (ext_full, normContainer container, logicalMapGet (suffixes.getD (suffixes.length - 2) ""))
    else
      (ext_full, normContainer container, logical)

/-- The byte pattern `b"##fileformat=VCF"`. -/
def vcfPat : List Nat := "##fileformat=VCF".toList.map Char.toNat

/-- The signature matching of `sniff_header` on the first 1024 bytes
(scanner.py lines 128-149), in source order; no match gives `"UNKNOWN"`. -/
def sniffBytes (head : List Nat) : String :=
  if head.take 3 = [31, 139, 8] then "GZIP"
  else if head.take 4 = [66, 65, 77, 1] then "BAM"
  else if head.take 4 = [67, 82, 65, 77] then "CRAM"
  else if head.take 3 = [66, 67, 70] then "BCF"
  else if containsSub (head.take 256) vcfPat then "VCF"
  else if head.take 4 = [64, 72, 68, 9] then "SAM"
  else if head.take 1 = [64] then "FASTQ"
  else if head.take 1 = [62] then "FASTA"
  else "UNKNOWN"

/-- `SequencingFileScanner.sniff_header` (scanner.py lines 125-149): any
open/read failure is caught and yields `"UNKNOWN"`. -/
def sniff_header (f : FSFile) : String :=
  if f.readOk then sniffBytes (f.content.take 1024) else "UNKNOWN"

/-- The exact byte sequence `sampled_fingerprint` (scanner.py lines 152-164)
feeds to its MD5 hasher: the first 64 KiB, then for files of at least
196608 bytes a 64 KiB window centred on the middle, then for files of at
least 64 KiB the final 64 KiB.  The file size is not part of the input. -/
def sampledBytes (content : List Nat) : List Nat :=
  let S := content.length
  content.take 65536
    ++ (if 196608 ≤ S then (content.drop (S / 2 - 32768)).take 65536 else [])
    ++ (if 65536 ≤ S then (content.drop (S - 65536)).take 65536 else [])

/-- `str(n).encode()`: the ASCII decimal digits of `n` as byte values. -/
def sizeBytes (n : Nat) : List Nat :=
  (toString n).toList.map Char.toNat

/-- Modelled on the spec sentence "The source's sampled fingerprint also
prepends the file size to the hash before windowing": what the hash input of
`sampled_fingerprint` would be if the decimal file size were prepended to the
windows.  Kept separate so it can be compared with `sampledBytes`, the
translation of the actual scanner.py routine. -/
def specSampledBytes (content : List Nat) : List Nat :=
  sizeBytes content.length ++ sampledBytes content

/-- The hash input of the legacy `SequencingFileScanner.get_file_hash`
(src/code/file_scanner.py lines 113-147): the ASCII decimal size first, then
either the whole content (small files) or the head chunk, a middle chunk of
`min(chunk, size - size/2)` bytes, and (as `chunk < size` there) the final
chunk. -/
def legacyHashBytes (content : List Nat) : List Nat :=
  let S := content.length
  let chunk := 65536
  sizeBytes S ++
    (if S ≤ chunk * 2 then content
     else (content.take chunk)
       ++ ((content.drop (S / 2)).take (min chunk (S - S / 2)))
       ++ (if chunk < S then (content.drop (S - chunk)).take chunk else []))

/-- Tier-1 fingerprint of a file: `some` digest on success, `none` for the
caught exception that scanner.py turns into the `"ERR"` sentinel. -/
def fpOf (md5M : List Nat → Nat) (f : FSFile) : Option Nat :=
  if f.sampledOk then some (md5M (sampledBytes f.content)) else none

/-- Tier-2 streaming digest of a file: `stream_hash` reads the whole file
through a chunk buffer, so its hash input is the entire content; a read
failure propagates (is `none` here). -/
def shaOf (shaM : List Nat → Nat) (f : FSFile) : Option Nat :=
  if f.streamOk then some (shaM f.content) else none

/-- The `FileMeta` record built in the walk loop (scanner.py lines 203-211). -/
def metaOf (f : FSFile) : FileMeta :=
  let e := normalizeExt f.path
  { path := f.path
  , size := f.content.length
  , mtime_ns := f.mtime_ns
  , header_type := sniff_header f
  , ext_full := strUpper e.1
  , ext_container := e.2.1
  , ext_logical := e.2.2 }

/-- The files successfully enumerated by the walk: `os.walk` yields no
entries when the root is not a directory, and a file whose `stat` raises is
skipped by the `except` at scanner.py line 212. -/
def walked (fs : FileSystem) : List FSFile :=
  if fs.rootIsDir then fs.files.filter (fun f => f.statOk) else []

/-- `d.setdefault(k, []).append(v)` on an insertion-ordered dict represented
as an association list. -/
def updAssoc [DecidableEq κ] : List (κ × List α) → κ → α → List (κ × List α)
  | [], k, v => [(k, [v])]
  | (k1, vs) :: rest, k, v =>
    if k = k1 then (k1, vs ++ [v]) :: rest else (k1, vs) :: updAssoc rest k v

/-- Fill an insertion-ordered dict of lists from a list of key/value pairs,
exactly as the Python loops `d.setdefault(key, []).append(value)` do. -/
def groupPairs [DecidableEq κ] (ps : List (κ × α)) : List (κ × List α) :=
  ps.foldl (fun d p => updAssoc d p.1 p.2) []

/-- All (key, element) pairs stored in a dict of lists. -/
def entriesOf (d : List (κ × List α)) : List (κ × α) :=
  d.flatMap (fun kv => kv.2.map (fun a => (kv.1, a)))

/-- The members of every bucket of cardinality at least 2: what a tier of the
duplicate cascade passes on to the next tier. -/
def survivors (d : List (κ × List α)) : List α :=
  (d.filter (fun kv => 2 ≤ kv.2.length)).flatMap (fun kv => kv.2)

/-- Number of buckets of cardinality at least 2 in a dict of lists. -/
def survivorCount (d : List (κ × List α)) : Nat :=
  (d.filter (fun kv => 2 ≤ kv.2.length)).length

/-- Tier 0 input pairs: every walked file of positive size keyed by its size
(scanner.py lines 232-235). -/
def sizePairs (ms : List FSFile) : List (Nat × FSFile) :=
  (ms.filter (fun m => 0 < m.content.length)).map (fun m => (m.content.length, m))

/-- `by_size` (scanner.py lines 232-235). -/
def bySize (ms : List FSFile) : List (Nat × List FSFile) :=
  groupPairs (sizePairs ms)

/-- Tier 1 input pairs: members of the size buckets of cardinality at least
2, keyed by `(size, fingerprint)`, with a failed fingerprint as `none` (the
`"ERR"` sentinel) (scanner.py lines 237-246). -/
def fpPairs (md5M : List Nat → Nat) (ms : List FSFile) : List ((Nat × Option Nat) × FSFile) :=
  ((bySize ms).filter (fun kv => 2 ≤ kv.2.length)).flatMap
    (fun kv => kv.2.map (fun m => ((kv.1, fpOf md5M m), m)))

/-- `by_fp` (scanner.py lines 237-246). -/
def byFp (md5M : List Nat → Nat) (ms : List FSFile) : List ((Nat × Option Nat) × List FSFile) :=
  groupPairs (fpPairs md5M ms)

/-- Tier 2 input pairs: members of fingerprint partitions of cardinality at
least 2 keyed by their streaming digest; a file whose stream hash raises is
skipped by the `continue` at scanner.py line 257. -/
def shaPairs (md5M shaM : List Nat → Nat) (ms : List FSFile) : List (Nat × FSFile) :=
  ((byFp md5M ms).filter (fun kv => 2 ≤ kv.2.length)).flatMap
    (fun kv => kv.2.filterMap (fun m => (shaOf shaM m).map (fun s => (s, m))))

/-- `groups` (scanner.py lines 249-258): a dict keyed by the digest alone. -/
def shaGroups (md5M shaM : List Nat → Nat) (ms : List FSFile) : List (Nat × List FSFile) :=
  groupPairs (shaPairs md5M shaM ms)

/-- `group[0].size` (scanner.py line 265). -/
def firstSize : List FSFile → Nat
  | [] => 0
  | f :: _ => f.content.length

/-- Stable insertion of `x` into a run sorted by `le` (new element placed
before the first entry it compares `le` to). -/
def insertLe (le : α → α → Bool) (x : α) : List α → List α
  | [] => [x]
  | y :: ys => if le x y then x :: y :: ys else y :: insertLe le x ys

/-- Stable sort by the boolean relation `le`, as Python's `sorted`. -/
def sortByLe (le : α → α → Bool) (l : List α) : List α :=
  l.foldr (insertLe le) []

/-- Python string comparison: lexicographic on code points. -/
def chLe : List Char → List Char → Bool
  | [], _ => true
  | _ :: _, [] => false
  | a :: as, b :: bs => if a = b then chLe as bs else decide (a < b)

/-- `sorted` on strings. -/
def strLe (a b : String) : Bool :=
  chLe a.toList b.toList

/-- The comparison of `dup_out.sort(key=(total_size, count), reverse=True)`:
descending lexicographic on `(total_size, count)`, ties keeping list order. -/
def dupLe (d1 d2 : DupGroup) : Bool :=
  decide (d2.total_size < d1.total_size)
    || (d2.total_size == d1.total_size && decide (d2.count ≤ d1.count))

/-- `dup_out` (scanner.py lines 260-267): digest groups of cardinality at
least 2, formatted and sorted by `(total_size, count)` descending. -/
def dupGroupsOf (md5M shaM : List Nat → Nat) (ms : List FSFile) : List DupGroup :=
  sortByLe dupLe
    (((shaGroups md5M shaM ms).filter (fun kv => 2 ≤ kv.2.length)).map
      (fun kv =>
        { sha256 := kv.1
        , total_size := firstSize kv.2 * kv.2.length
        , count := kv.2.length
        , files := sortByLe strLe (kv.2.map (fun g => g.path)) }))

/-- The mismatch loop of `scan_directory` (scanner.py lines 277-307). -/
def mismatchesOf (metas : List FileMeta) (include_non_bio : Bool) : List Mismatch :=
  metas.filterMap (fun m =>
    let header := strUpper m.header_type
    let ext_container := normContainer m.ext_container
    let ext_logical := strUpper m.ext_logical
    if header == "UNKNOWN" || header == "" then none
    else
      let header_is_bio := BIO_LOGICAL.contains header || BIO_CONTAINERS.contains header
      let name_is_bio := BIO_LOGICAL.contains ext_logical || BIO_CONTAINERS.contains ext_container
      if !include_non_bio && !(header_is_bio || name_is_bio) then none
      else
        let is_mismatch :=
          if BIO_CONTAINERS.contains header then !(BIO_CONTAINERS.contains ext_container)
          else if BIO_CONTAINERS.contains ext_container then true
          else if header == "" then false
          else header != ext_logical
        if is_mismatch then
          some { path := m.path
               , extension := m.ext_full
               , extension_container := ext_container
               , extension_logical := ext_logical
               , header_type := header }
        else none)

/-- One `files[]` entry from a `FileMeta` (scanner.py lines 310-317). -/
def toFileRec (m : FileMeta) : FileRec :=
  { path := m.path
  , size := m.size
  , header_type := m.header_type
  , extension := m.ext_full
  , extension_container := m.ext_container
  , extension_logical := m.ext_logical }

/-- `files_out` (scanner.py lines 310-317). -/
def filesOut (metas : List FileMeta) : List FileRec :=
  metas.map toFileRec

/-- The processing tokens of `_TOKEN_RE` (scanner.py line 43); the regex,
applied to a separator-free word, matches exactly when the lowercased word is
one of these. -/
def procTokens : List String :=
  ["r1", "r2", "read1", "read2", "paired", "unpaired", "trimmed", "sorted", "unsorted", "collated"]

/-- The basename with all dotted suffixes stripped, as the loop at
`_base_stem` lines 48-49 (each suffix is removed from the end). -/
def stemOf (name : String) : String :=
  name.take (name.length - ((suffixesOf name).map String.length).sum)

/-- `_base_stem` (scanner.py lines 45-52): strip the suffixes, split on
`.`/`-`/`_`, drop empty and processing tokens, rejoin with `.` and
lowercase. -/
def baseStem (p : String) : String :=
  let name := basenameOf p
  let parts := (splitPred (fun c => c == '.' || c == '-' || c == '_') (stemOf name)).filter
    (fun w => w != "" && !(procTokens.contains (strLower w)))
  strLower (joinWith "." parts)

/-- `_has` (scanner.py lines 54-55). -/
def hasKind (x : FileRec) (kind : String) : Bool :=
  x.header_type == kind || x.extension_logical == kind

/-- `_is_container(x, ("GZIP", "BGZF"))` (scanner.py lines 57-58). -/
def isContainerGZ (x : FileRec) : Bool :=
  let u := strUpper x.extension_container
  u == "GZIP" || u == "BGZF"

/-- The character class of characters `shlex.quote` leaves unquoted. -/
def shSafeChar (c : Char) : Bool :=
  c.isAlphanum || c == '_' || c == '@' || c == '%' || c == '+' || c == '='
    || c == ':' || c == ',' || c == '.' || c == '/' || c == '-'

/-- `shlex.quote`. -/
def shlexQuote (s : String) : String :=
  if s == "" then "''"
  else if s.toList.all shSafeChar then s
  else "'" ++ s.replace "'" "'\"'\"'" ++ "'"

/-- `fastqs` of a sample group (scanner.py line 330). -/
def fastqsOf (items : List FileRec) : List FileRec :=
  items.filter (fun x => hasKind x "FASTQ")

/-- The SRA test used at scanner.py lines 331 and 380. -/
def isSra (x : FileRec) : Bool :=
  endsWithStr (strUpper x.extension) "SRA"

/-- Rule 1 (scanner.py lines 333-354): every SAM of the group is erasable
when a BAM (any compression) or a CRAM is present and policy allows it; the
dependency is the first BAM, else the first CRAM plus an external
reference. -/
def rule1 (items : List FileRec) : List Candidate :=
  if ALLOW_SAM_REGEN && items.any (fun x => hasKind x "SAM")
      && (items.any (fun x => hasKind x "BAM") || items.any (fun x => hasKind x "CRAM")) then
    (items.filter (fun x => hasKind x "SAM")).filterMap (fun x =>
      if items.any (fun y => hasKind y "BAM") then
        (items.find? (fun y => hasKind y "BAM")).map (fun bam =>
          { path := x.path
          , reason := "SAM is an intermediate; re-emit from BAM"
          , fidelity := "content-equivalent (order may differ)"
          , depends_on := [bam.path]
          , regen_cmd := "samtools view -h " ++ shlexQuote bam.path ++ " > " ++ shlexQuote x.path })
      else
        (items.find? (fun y => hasKind y "CRAM")).map (fun cram =>
          { path := x.path
          , reason := "SAM is an intermediate; re-emit from CRAM"
          , fidelity := "content-equivalent (requires reference)"
          , depends_on := [cram.path, "<ref.fa>"]
          , regen_cmd := "samtools view -h -T <ref.fa> " ++ shlexQuote cram.path ++ " > " ++ shlexQuote x.path }))
  else []

/-- Rule 2 (scanner.py lines 356-366): every uncompressed BAM is erasable
when a CRAM is present. -/
def rule2 (items : List FileRec) : List Candidate :=
  if items.any (fun x => hasKind x "BAM" && !isContainerGZ x)
      && items.any (fun x => hasKind x "CRAM") then
    match items.find? (fun y => hasKind y "CRAM") with
    | some cram =>
      (items.filter (fun x => hasKind x "BAM" && !isContainerGZ x)).map (fun b =>
        { path := b.path
        , reason := "BAM superseded by CRAM; reconstructable from CRAM"
        , fidelity := "content-equivalent (coordinate order preserved if CRAM is sorted)"
        , depends_on := [cram.path, "<ref.fa>"]
        , regen_cmd := "samtools view -b -T <ref.fa> -o " ++ shlexQuote b.path ++ " " ++ shlexQuote cram.path })
    | none => []
  else []

/-- Rule 3 (scanner.py lines 368-387): with both an SRA and FASTQs in the
group, under `PREFER_SRA_OVER_FASTQ` every FASTQ is erasable; otherwise a
single candidate deletes the first SRA, depending on all the group's
FASTQs. -/
def rule3 (items : List FileRec) : List Candidate :=
  if items.any isSra && !(fastqsOf items).isEmpty then
    if PREFER_SRA_OVER_FASTQ then
      (fastqsOf items).map (fun fq =>
        { path := fq.path
        , reason := "FASTQ re-derivable from retained SRA"
        , fidelity := "tool-deterministic (fasterq-dump + pigz)"
        , depends_on := ["<SRA_ACCESSION>"]
        , regen_cmd := "fasterq-dump --split-files SRRXXXXXX && pigz -p N *.fastq" })
    else
      match items.find? isSra with
      | some sra =>
        [{ path := sra.path
         , reason := "SRA redundant when gzipped FASTQ is retained locally"
         , fidelity := "content-equivalent (tool-dependent container)"
         , depends_on := (fastqsOf items).map (fun fq => fq.path)
         , regen_cmd := "n/a (keep FASTQ as canonical raw layer)" }]
      | none => []
  else []

/-- `raw_fq` (scanner.py line 390). -/
def rawFq (items : List FileRec) : List FileRec :=
  (fastqsOf items).filter (fun fq => !(containsStr (strLower (basenameOf fq.path)) "trimmed"))

/-- `trimmed_fq` (scanner.py line 391). -/
def trimmedFq (items : List FileRec) : List FileRec :=
  (fastqsOf items).filter (fun fq => containsStr (strLower (basenameOf fq.path)) "trimmed")

/-- The manifest search of rule 4 (scanner.py lines 393-396). -/
def manifestOf (items : List FileRec) : Option FileRec :=
  items.find? (fun c => endsWithStr (strLower c.path) ".manifest.json")

/-- Rule 4 (scanner.py lines 389-404): every trimmed FASTQ is erasable when a
raw FASTQ is present, depending on the first raw FASTQ and, when present, the
manifest. -/
def rule4 (items : List FileRec) : List Candidate :=
  if !(rawFq items).isEmpty && !(trimmedFq items).isEmpty then
    (trimmedFq items).map (fun tfq =>
      { path := tfq.path
      , reason := "Trimmed FASTQ is re-derivable from raw FASTQ with recorded parameters"
      , fidelity := "content-equivalent given pinned tool and params"
      , depends_on :=
          (match rawFq items with | r :: _ => [r.path] | [] => [])
            ++ (match manifestOf items with | some mrec => [mrec.path] | none => [])
      , regen_cmd := "cutadapt <params_from_manifest> -o out.fq.gz raw.fq.gz" })
  else []

/-- The rule applications of one sample group, in source order. -/
def rulesForGroup (items : List FileRec) : List Candidate :=
  rule1 items ++ rule2 items ++ rule3 items ++ rule4 items

/-- `by_sample` (scanner.py lines 319-322). -/
def bySample (recs : List FileRec) : List (String × List FileRec) :=
  groupPairs (recs.map (fun r => (baseStem r.path, r)))

/-- `erasable_candidates` (scanner.py lines 324-404). -/
def erasableOf (recs : List FileRec) : List Candidate :=
  (bySample recs).flatMap (fun kv => rulesForGroup kv.2)

/-- The `ScanStats` computed at scanner.py lines 269-275 from the psutil
samples collected during the walk. -/
def statsOf (t : TimingInput) : ScanStats :=
  { wall_clock_s := t.wall_clock
  , cpu_avg :=
      if t.cpu_samples.isEmpty then none
      else some (t.cpu_samples.sum / max 1 t.cpu_samples.length)
  , cpu_peak := match t.cpu_samples with | [] => none | x :: xs => some (xs.foldl max x)
  , peak_rss_mb :=
      t.rss_samples.foldl
        (fun acc rss => match acc with
          | none => some rss
          | some p => if p < rss then some rss else some p) none }

/-- The report assembled at scanner.py lines 406-413 for a run that passed
the root check. -/
def mkReport (md5M shaM : List Nat → Nat) (include_non_bio : Bool)
    (fs : FileSystem) (t : TimingInput) : Report :=
  let ms := walked fs
  let metas := ms.map metaOf
  let recs := filesOut metas
  { n_files := metas.length
  , stats := statsOf t
  , mismatches := mismatchesOf metas include_non_bio
  , files := recs
  , duplicate_groups := dupGroupsOf md5M shaM ms
  , erasable_candidates := erasableOf recs }

/-- `SequencingFileScanner.scan_directory` (scanner.py lines 176-413): raises
`FileNotFoundError` (RootMissing) exactly when the resolved root does not
exist; any existing root -- directory or not -- proceeds to the walk. -/
def scan_directory (md5M shaM : List Nat → Nat) (include_non_bio : Bool)
    (fs : FileSystem) (t : TimingInput) : Except ScanError Report :=
  if fs.rootExists = false then Except.error ScanError.rootMissing
  else Except.ok (mkReport md5M shaM include_non_bio fs t)

/-- An injective stand-in digest used to instantiate the abstract hash
functions on concrete inputs. -/
def natListCode : List Nat → Nat
  | [] => 0
  | a :: l => Nat.pair a (natListCode l) + 1

/-- A fully readable regular file with the given path and contents. -/
def plainFile (p : String) (c : List Nat) : FSFile :=
  { path := p, content := c, mtime_ns := 0
  , statOk := true, readOk := true, sampledOk := true, streamOk := true }

/-- An existing directory root holding the given files. -/
def dirFS (l : List FSFile) : FileSystem :=
  { rootExists := true, rootIsDir := true, files := l }

/-- A timing input with no samples. -/
def timing0 : TimingInput := { wall_clock := 0, cpu_samples := [], rss_samples := [] }

/-- A second timing input for the same tree, differing only in the measured
wall clock. -/
def timing1 : TimingInput := { wall_clock := 1, cpu_samples := [], rss_samples := [] }

theorem mem_entriesOf {κ α : Type} {d : List (κ × List α)} {k : κ} {m : α} :
    (k, m) ∈ entriesOf d ↔ ∃ vs, (k, vs) ∈ d ∧ m ∈ vs := by
  constructor
  · intro h
    rcases List.mem_flatMap.1 h with ⟨kv, hkv, hmem⟩
    rcases List.mem_map.1 hmem with ⟨a, ha, heq⟩
    cases heq
    exact ⟨kv.2, by simpa using hkv, ha⟩
  · rintro ⟨vs, hvs, hm⟩
    exact List.mem_flatMap.2 ⟨(k, vs), hvs, List.mem_map.2 ⟨m, hm, rfl⟩⟩

theorem entriesOf_updAssoc {κ α : Type} [DecidableEq κ] (d : List (κ × List α)) (k : κ) (v : α) :
    (entriesOf (updAssoc d k v)).Perm ((k, v) :: entriesOf d) := by
  induction d with
  | nil => simp [updAssoc, entriesOf]
  | cons hd tl ih =>
    obtain ⟨k2, vs⟩ := hd
    by_cases hkk : k = k2
    · subst hkk
      rw [show updAssoc ((k, vs) :: tl) k v = (k, vs ++ [v]) :: tl from by simp [updAssoc]]
      simp only [entriesOf, List.flatMap_cons, List.map_append, List.append_assoc,
        List.singleton_append]
      exact List.perm_middle
    · simp only [updAssoc, if_neg hkk, entriesOf, List.flatMap_cons]
      exact ((ih.append_left _).trans List.perm_middle : _)

theorem entriesOf_groupPairsAux {κ α : Type} [DecidableEq κ] (ps : List (κ × α))
    (acc : List (κ × List α)) :
    (entriesOf (ps.foldl (fun d p => updAssoc d p.1 p.2) acc)).Perm (entriesOf acc ++ ps) := by
  induction ps generalizing acc with
  | nil => simp
  | cons p ps ih =>
    simp only [List.foldl_cons]
    have h1 := ih (updAssoc acc p.1 p.2)
    have h2 := (entriesOf_updAssoc acc p.1 p.2).append_right ps
    have h4 : (((p.1, p.2) :: entriesOf acc) ++ ps).Perm (entriesOf acc ++ p :: ps) := by
      rw [List.cons_append]
      exact List.perm_middle.symm
    exact (h1.trans h2).trans h4

theorem entriesOf_groupPairs {κ α : Type} [DecidableEq κ] (ps : List (κ × α)) :
    (entriesOf (groupPairs ps)).Perm ps := by
  simpa [entriesOf] using entriesOf_groupPairsAux ps []

theorem groupPairs_sound {κ α : Type} [DecidableEq κ] {ps : List (κ × α)} {k : κ}
    {vs : List α} {m : α} (hkv : (k, vs) ∈ groupPairs ps) (hm : m ∈ vs) :
    (k, m) ∈ ps :=
  (entriesOf_groupPairs ps).mem_iff.1 (mem_entriesOf.2 ⟨vs, hkv, hm⟩)

theorem groupPairs_complete {κ α : Type} [DecidableEq κ] {ps : List (κ × α)} {k : κ} {m : α}
    (h : (k, m) ∈ ps) : ∃ vs, (k, vs) ∈ groupPairs ps ∧ m ∈ vs :=
  mem_entriesOf.1 ((entriesOf_groupPairs ps).mem_iff.2 h)

theorem mem_insertLe {α : Type} {le : α → α → Bool} {x a : α} {l : List α} :
    a ∈ insertLe le x l ↔ a = x ∨ a ∈ l := by
  induction l with
  | nil => simp [insertLe]
  | cons y ys ih =>
    simp only [insertLe]
    split
    · simp
    · simp only [List.mem_cons, ih]
      tauto

theorem mem_sortByLe {α : Type} {le : α → α → Bool} {l : List α} {a : α} :
    a ∈ sortByLe le l ↔ a ∈ l := by
  induction l with
  | nil => simp [sortByLe]
  | cons x xs ih =>
    simp only [sortByLe, List.foldr_cons, List.mem_cons]
    rw [mem_insertLe]
    simp only [sortByLe] at ih
    rw [ih]

theorem length_insertLe {α : Type} (le : α → α → Bool) (x : α) (l : List α) :
    (insertLe le x l).length = l.length + 1 := by
  induction l with
  | nil => simp [insertLe]
  | cons y ys ih =>
    simp only [insertLe]
    split <;> simp [ih]

theorem length_sortByLe {α : Type} (le : α → α → Bool) (l : List α) :
    (sortByLe le l).length = l.length := by
  induction l with
  | nil => rfl
  | cons x xs ih =>
    simp only [sortByLe, List.foldr_cons] at *
    rw [length_insertLe, ih]
    rfl

theorem mem_survivors {κ α : Type} {d : List (κ × List α)} {m : α} :
    m ∈ survivors d ↔ ∃ k vs, (k, vs) ∈ d ∧ 2 ≤ vs.length ∧ m ∈ vs := by
  simp only [survivors, List.mem_flatMap, List.mem_filter, decide_eq_true_eq]
  constructor
  · rintro ⟨kv, ⟨hkv, hlen⟩, hm⟩
    exact ⟨kv.1, kv.2, by simpa using hkv, hlen, hm⟩
  · rintro ⟨k, vs, h1, h2, h3⟩
    exact ⟨(k, vs), ⟨h1, h2⟩, h3⟩

theorem sizePairs_mem {ms : List FSFile} {k : Nat} {f : FSFile} :
    (k, f) ∈ sizePairs ms ↔ f ∈ ms ∧ 0 < f.content.length ∧ k = f.content.length := by
  simp only [sizePairs, List.mem_map, List.mem_filter, decide_eq_true_eq, Prod.mk.injEq]
  constructor
  · rintro ⟨m, ⟨hm, hpos⟩, hk, hmf⟩
    subst hmf
    exact ⟨hm, hpos, hk.symm⟩
  · rintro ⟨hm, hpos, hk⟩
    exact ⟨f, ⟨hm, hpos⟩, hk.symm, rfl⟩

theorem bySize_key {ms : List FSFile} {k : Nat} {vs : List FSFile} {f : FSFile}
    (hkv : (k, vs) ∈ bySize ms) (hf : f ∈ vs) :
    k = f.content.length ∧ f ∈ ms :=
  have h := sizePairs_mem.1 (groupPairs_sound hkv hf)
  ⟨h.2.2, h.1⟩

theorem fpPairs_mem {md5M : List Nat → Nat} {ms : List FSFile} {k : Nat × Option Nat}
    {f : FSFile} (h : (k, f) ∈ fpPairs md5M ms) :
    k = (f.content.length, fpOf md5M f) ∧ f ∈ survivors (bySize ms) := by
  simp only [fpPairs, List.mem_flatMap, List.mem_filter, List.mem_map, decide_eq_true_eq] at h
  rcases h with ⟨kv, ⟨hkv, hlen⟩, m, hm, heq⟩
  cases heq
  have hk := bySize_key (by simpa using hkv) hm
  constructor
  · rw [hk.1]
  · exact mem_survivors.2 ⟨kv.1, kv.2, by simpa using hkv, hlen, hm⟩

theorem byFp_key {md5M : List Nat → Nat} {ms : List FSFile} {k : Nat × Option Nat}
    {vs : List FSFile} {f : FSFile} (hkv : (k, vs) ∈ byFp md5M ms) (hf : f ∈ vs) :
    k = (f.content.length, fpOf md5M f) ∧ f ∈ survivors (bySize ms) :=
  fpPairs_mem (groupPairs_sound hkv hf)

theorem shaPairs_mem {md5M shaM : List Nat → Nat} {ms : List FSFile} {k : Nat} {f : FSFile}
    (h : (k, f) ∈ shaPairs md5M shaM ms) :
    shaOf shaM f = some k ∧ f ∈ survivors (byFp md5M ms) := by
  simp only [shaPairs, List.mem_flatMap, List.mem_filter, List.mem_filterMap,
    decide_eq_true_eq] at h
  rcases h with ⟨kv, ⟨hkv, hlen⟩, m, hm, heq⟩
  rcases Option.map_eq_some'.1 heq with ⟨s, hs, heq2⟩
  cases heq2
  exact ⟨hs, mem_survivors.2 ⟨kv.1, kv.2, by simpa using hkv, hlen, hm⟩⟩

theorem shaGroups_sound {md5M shaM : List Nat → Nat} {ms : List FSFile} {k : Nat}
    {vs : List FSFile} {f : FSFile} (hkv : (k, vs) ∈ shaGroups md5M shaM ms) (hf : f ∈ vs) :
    shaOf shaM f = some k ∧ f ∈ survivors (byFp md5M ms) :=
  shaPairs_mem (groupPairs_sound hkv hf)

theorem survivors_bySize_sub {ms : List FSFile} {f : FSFile}
    (h : f ∈ survivors (bySize ms)) : f ∈ ms := by
  rcases mem_survivors.1 h with ⟨k, vs, hkv, _, hf⟩
  exact (bySize_key hkv hf).2

theorem natListCode_injective : Function.Injective natListCode := by
  intro a b h
  induction a generalizing b with
  | nil =>
    cases b with
    | nil => rfl
    | cons y ys => simp [natListCode] at h
  | cons x xs ih =>
    cases b with
    | nil => simp [natListCode] at h
    | cons y ys =>
      simp only [natListCode, Nat.add_right_cancel_iff] at h
      have h2 := congrArg Nat.unpair h
      rw [Nat.unpair_pair, Nat.unpair_pair] at h2
      obtain ⟨h3, h4⟩ := Prod.mk.injEq .. |>.mp h2
      rw [h3, ih h4]

theorem walked_mem {fs : FileSystem} {f : FSFile} :
    f ∈ walked fs ↔ fs.rootIsDir = true ∧ f ∈ fs.files ∧ f.statOk = true := by
  unfold walked
  split
  · next hdir => simp [List.mem_filter, hdir]
  · next hdir => simp [List.mem_filter, Bool.not_eq_true _ ▸ hdir]

theorem scan_ok_iff {md5M shaM : List Nat → Nat} {inb : Bool} {fs : FileSystem}
    {t : TimingInput} {r : Report} :
    scan_directory md5M shaM inb fs t = Except.ok r ↔
      fs.rootExists = true ∧ r = mkReport md5M shaM inb fs t := by
  unfold scan_directory
  cases hex : fs.rootExists <;> simp [hex, eq_comm]

theorem mkReport_files (md5M shaM : List Nat → Nat) (inb : Bool) (fs : FileSystem)
    (t : TimingInput) :
    (mkReport md5M shaM inb fs t).files = filesOut ((walked fs).map metaOf) := rfl

theorem mkReport_mismatches (md5M shaM : List Nat → Nat) (inb : Bool) (fs : FileSystem)
    (t : TimingInput) :
    (mkReport md5M shaM inb fs t).mismatches = mismatchesOf ((walked fs).map metaOf) inb := rfl

theorem mkReport_dup_groups (md5M shaM : List Nat → Nat) (inb : Bool) (fs : FileSystem)
    (t : TimingInput) :
    (mkReport md5M shaM inb fs t).duplicate_groups = dupGroupsOf md5M shaM (walked fs) := rfl

theorem mkReport_erasable (md5M shaM : List Nat → Nat) (inb : Bool) (fs : FileSystem)
    (t : TimingInput) :
    (mkReport md5M shaM inb fs t).erasable_candidates =
      erasableOf (filesOut ((walked fs).map metaOf)) := rfl

theorem survivors_byFp_sub {md5M : List Nat → Nat} {ms : List FSFile} {f : FSFile}
    (h : f ∈ survivors (byFp md5M ms)) : f ∈ ms := by
  rcases mem_survivors.1 h with ⟨k, vs, hkv, _, hf⟩
  exact survivors_bySize_sub (byFp_key hkv hf).2

/-- C1 counterexample: a root that exists but is a regular file.  `scan`
checks only `rootp.exists()`, so the check passes, `os.walk` enumerates
nothing, and a report is returned -- the claimed RootMissing failure does not
happen. -/
theorem c1_cex_file_root_returns_report :
    (scan_directory natListCode natListCode false
      { rootExists := true, rootIsDir := false, files := [plainFile "/r/x" [1]] }
      timing0).isOk = true := by
  decide

/-- C1 (amended): `scan_directory` fails with RootMissing exactly when the
root does not exist; a root that exists but is a regular file passes the
check, the walk enumerates no files, and an empty report is returned. -/
theorem c1_root_file_empty_report (md5M shaM : List Nat → Nat) (inb : Bool)
    (fs : FileSystem) (t : TimingInput)
    (hex : fs.rootExists = true) (hdir : fs.rootIsDir = false) :
    scan_directory md5M shaM inb fs t =
      Except.ok { n_files := 0, stats := statsOf t, mismatches := [], files := []
                , duplicate_groups := [], erasable_candidates := [] } ∧
    ∀ fs2 : FileSystem, fs2.rootExists = false →
      scan_directory md5M shaM inb fs2 t = Except.error ScanError.rootMissing := by
  constructor
  · have hw : walked fs = [] := by simp [walked, hdir]
    simp [scan_directory, hex, mkReport, hw]
    exact ⟨rfl, rfl, rfl, rfl⟩
  · intro fs2 h2
    simp [scan_directory, h2]

/-- C1 witness. -/
theorem c1_root_file_empty_report_witness :
    scan_directory natListCode natListCode false
        { rootExists := true, rootIsDir := false, files := [plainFile "/r/x" [1]] } timing0 =
      Except.ok { n_files := 0, stats := statsOf timing0, mismatches := [], files := []
                , duplicate_groups := [], erasable_candidates := [] } ∧
    ∀ fs2 : FileSystem, fs2.rootExists = false →
      scan_directory natListCode natListCode false fs2 timing0 =
        Except.error ScanError.rootMissing :=
  c1_root_file_empty_report natListCode natListCode false
    { rootExists := true, rootIsDir := false, files := [plainFile "/r/x" [1]] } timing0
    (by decide) (by decide)

/-- C2 counterexample: a file whose `stat` succeeds but whose header
`open`/`read` fails is not excluded: it appears in `files[]` (with
header_type UNKNOWN), because `sniff_header` swallows the exception
itself. -/
theorem c2_cex_read_failure_still_listed :
    (scan_directory natListCode natListCode false
        (dirFS [{ path := "/r/bad", content := [64], mtime_ns := 0
                , statOk := true, readOk := false, sampledOk := true, streamOk := true }])
        timing0).map (fun r => r.files) =
      Except.ok [{ path := "/r/bad", size := 1, header_type := "UNKNOWN"
                 , extension := "", extension_container := "", extension_logical := "" }] := by
  decide

/-- C2 (amended): only a `stat` failure excludes a file from `files[]`
(every listed record comes from a stat-successful file, and every
stat-successful file of a directory root is listed); a file whose header
`open`/`read` fails stays in the walk output with header_type
`"UNKNOWN"`. -/
theorem c2_only_stat_failure_excludes (md5M shaM : List Nat → Nat) (inb : Bool)
    (fs : FileSystem) (t : TimingInput) (r : Report)
    (hr : scan_directory md5M shaM inb fs t = Except.ok r) :
    (∀ rec ∈ r.files, ∃ f ∈ fs.files, f.statOk = true ∧ rec = toFileRec (metaOf f)) ∧
    (∀ f ∈ fs.files, fs.rootIsDir = true → f.statOk = true → toFileRec (metaOf f) ∈ r.files) ∧
    (∀ f : FSFile, f.readOk = false → (metaOf f).header_type = "UNKNOWN") := by
  obtain ⟨hex, hrm⟩ := scan_ok_iff.1 hr
  subst hrm
  rw [mkReport_files]
  refine ⟨?_, ?_, ?_⟩
  · intro rec hrec
    simp only [filesOut, List.map_map, List.mem_map, Function.comp] at hrec
    rcases hrec with ⟨f, hf, hrec⟩
    rcases walked_mem.1 hf with ⟨_, hmem, hstat⟩
    exact ⟨f, hmem, hstat, hrec.symm⟩
  · intro f hf hdir hstat
    simp only [filesOut, List.map_map, List.mem_map, Function.comp]
    exact ⟨f, walked_mem.2 ⟨hdir, hf, hstat⟩, rfl⟩
  · intro f hread
    simp [metaOf, sniff_header, hread]

/-- C2 witness. -/
theorem c2_only_stat_failure_excludes_witness :
    (∀ rec ∈ [({ path := "/r/bad", size := 1, header_type := "UNKNOWN", extension := ""
               , extension_container := "", extension_logical := "" } : FileRec)],
       ∃ f ∈ [({ path := "/r/bad", content := [64], mtime_ns := 0, statOk := true
               , readOk := false, sampledOk := true, streamOk := true } : FSFile)],
         f.statOk = true ∧ rec = toFileRec (metaOf f)) ∧
    (∀ f ∈ [({ path := "/r/bad", content := [64], mtime_ns := 0, statOk := true
             , readOk := false, sampledOk := true, streamOk := true } : FSFile)],
       (dirFS [{ path := "/r/bad", content := [64], mtime_ns := 0, statOk := true
               , readOk := false, sampledOk := true, streamOk := true }]).rootIsDir = true →
       f.statOk = true →
       toFileRec (metaOf f) ∈
         [({ path := "/r/bad", size := 1, header_type := "UNKNOWN", extension := ""
           , extension_container := "", extension_logical := "" } : FileRec)]) ∧
    (∀ f : FSFile, f.readOk = false → (metaOf f).header_type = "UNKNOWN") := by
  have h := c2_only_stat_failure_excludes natListCode natListCode false
    (dirFS [{ path := "/r/bad", content := [64], mtime_ns := 0, statOk := true
            , readOk := false, sampledOk := true, streamOk := true }]) timing0
    { n_files := 1
    , stats := statsOf timing0
    , mismatches := []
    , files := [{ path := "/r/bad", size := 1, header_type := "UNKNOWN", extension := ""
                , extension_container := "", extension_logical := "" }]
    , duplicate_groups := []
    , erasable_candidates := [] }
    (by decide)
  exact h

/-- C3 counterexample: four files of one size whose contents pair up
(`[1,1,1]` twice and `[2,2,2]` twice) give one size bucket but two Tier-1
`(size, fingerprint)` partitions of cardinality 2 (and two final groups), so
the claimed count inequalities fail: 2 is not at most 1. -/
theorem c3_cex_partition_counts_not_monotone :
    ¬ (survivorCount (shaGroups natListCode natListCode
          [plainFile "/r/a" [1, 1, 1], plainFile "/r/b" [1, 1, 1],
           plainFile "/r/c" [2, 2, 2], plainFile "/r/d" [2, 2, 2]]) ≤
        survivorCount (byFp natListCode
          [plainFile "/r/a" [1, 1, 1], plainFile "/r/b" [1, 1, 1],
           plainFile "/r/c" [2, 2, 2], plainFile "/r/d" [2, 2, 2]]) ∧
       survivorCount (byFp natListCode
          [plainFile "/r/a" [1, 1, 1], plainFile "/r/b" [1, 1, 1],
           plainFile "/r/c" [2, 2, 2], plainFile "/r/d" [2, 2, 2]]) ≤
        survivorCount (bySize
          [plainFile "/r/a" [1, 1, 1], plainFile "/r/b" [1, 1, 1],
           plainFile "/r/c" [2, 2, 2], plainFile "/r/d" [2, 2, 2]])) := by
  decide

/-- C3 (amended): the cascade is monotone on membership, not on the number
of surviving partitions: every file of a Tier-2 digest group that survived
(the final duplicate groups are these groups of cardinality at least 2)
belongs to a surviving Tier-1 partition, and every file of a surviving
Tier-1 partition belongs to a surviving size bucket. -/
theorem c3_tier_membership_monotone (md5M shaM : List Nat → Nat) (ms : List FSFile)
    (m : FSFile) :
    (m ∈ survivors (shaGroups md5M shaM ms) → m ∈ survivors (byFp md5M ms)) ∧
    (m ∈ survivors (byFp md5M ms) → m ∈ survivors (bySize ms)) := by
  constructor
  · intro h
    rcases mem_survivors.1 h with ⟨k, vs, hkv, hlen, hm⟩
    exact (shaGroups_sound hkv hm).2
  · intro h
    rcases mem_survivors.1 h with ⟨k, vs, hkv, hlen, hm⟩
    exact (byFp_key hkv hm).2

/-- C3 witness. -/
theorem c3_tier_membership_monotone_witness :
    plainFile "/r/a.txt" [1, 2, 3] ∈
      survivors (byFp natListCode [plainFile "/r/a.txt" [1, 2, 3], plainFile "/r/b.txt" [1, 2, 3]]) ∧
    plainFile "/r/a.txt" [1, 2, 3] ∈
      survivors (bySize [plainFile "/r/a.txt" [1, 2, 3], plainFile "/r/b.txt" [1, 2, 3]]) := by
  have h := c3_tier_membership_monotone natListCode natListCode
    [plainFile "/r/a.txt" [1, 2, 3], plainFile "/r/b.txt" [1, 2, 3]]
    (plainFile "/r/a.txt" [1, 2, 3])
  exact ⟨h.1 (by decide), h.2 (h.1 (by decide))⟩

/-- C7 counterexample: two runs over the same unchanged (here: empty) tree
with different wall-clock measurements produce reports that are not equal --
the stats object differs -- so no serialization of them is byte-equal. -/
theorem c7_cex_stats_differ_between_runs :
    scan_directory natListCode natListCode false (dirFS []) timing0 ≠
      scan_directory natListCode natListCode false (dirFS []) timing1 := by
  decide

/-- C7 (amended): two runs over the same unchanged tree agree on every
report field except `stats` (`n_files`, `mismatches`, `files`,
`duplicate_groups`, `erasable_candidates` are byte-equal under any
serialization); the stats object is computed from the run's timing and
sampling inputs and may differ. -/
theorem c7_report_core_deterministic (md5M shaM : List Nat → Nat) (inb : Bool)
    (fs : FileSystem) (t1 t2 : TimingInput) (r1 r2 : Report)
    (h1 : scan_directory md5M shaM inb fs t1 = Except.ok r1)
    (h2 : scan_directory md5M shaM inb fs t2 = Except.ok r2) :
    r1.n_files = r2.n_files ∧ r1.mismatches = r2.mismatches ∧ r1.files = r2.files ∧
    r1.duplicate_groups = r2.duplicate_groups ∧
    r1.erasable_candidates = r2.erasable_candidates := by
  obtain ⟨_, e1⟩ := scan_ok_iff.1 h1
  obtain ⟨_, e2⟩ := scan_ok_iff.1 h2
  subst e1
  subst e2
  exact ⟨rfl, rfl, rfl, rfl, rfl⟩

/-- C7 witness. -/
theorem c7_report_core_deterministic_witness :
    (({ n_files := 0, stats := statsOf timing0, mismatches := [], files := []
      , duplicate_groups := [], erasable_candidates := [] } : Report).n_files =
     ({ n_files := 0, stats := statsOf timing1, mismatches := [], files := []
      , duplicate_groups := [], erasable_candidates := [] } : Report).n_files) ∧
    (({ n_files := 0, stats := statsOf timing0, mismatches := [], files := []
      , duplicate_groups := [], erasable_candidates := [] } : Report).mismatches =
     ({ n_files := 0, stats := statsOf timing1, mismatches := [], files := []
      , duplicate_groups := [], erasable_candidates := [] } : Report).mismatches) ∧
    (({ n_files := 0, stats := statsOf timing0, mismatches := [], files := []
      , duplicate_groups := [], erasable_candidates := [] } : Report).files =
     ({ n_files := 0, stats := statsOf timing1, mismatches := [], files := []
      , duplicate_groups := [], erasable_candidates := [] } : Report).files) ∧
    (({ n_files := 0, stats := statsOf timing0, mismatches := [], files := []
      , duplicate_groups := [], erasable_candidates := [] } : Report).duplicate_groups =
     ({ n_files := 0, stats := statsOf timing1, mismatches := [], files := []
      , duplicate_groups := [], erasable_candidates := [] } : Report).duplicate_groups) ∧
    (({ n_files := 0, stats := statsOf timing0, mismatches := [], files := []
      , duplicate_groups := [], erasable_candidates := [] } : Report).erasable_candidates =
     ({ n_files := 0, stats := statsOf timing1, mismatches := [], files := []
      , duplicate_groups := [], erasable_candidates := [] } : Report).erasable_candidates) :=
  c7_report_core_deterministic natListCode natListCode false (dirFS []) timing0 timing1
    _ _ (by decide) (by decide)

/-- C9 counterexample: the hash input of `sampled_fingerprint` for a
one-byte file is just that byte; the spec's size-prepended form starts with
the ASCII digit of the size, so the two differ -- the portable scanner does
not prepend the size. -/
theorem c9_cex_no_size_prepended :
    sampledBytes [65] ≠ specSampledBytes [65] := by
  decide

/-- C9 (amended): Tier-1 clustering keys on the pair `(size, fingerprint)`
-- every file in a Tier-1 bucket has exactly the bucket key's size and
fingerprint -- while the sampled fingerprint itself hashes only the
head/middle/tail windows; the size prepend exists only in the legacy
`get_file_hash`, whose hash input starts with the ASCII decimal size. -/
theorem c9_tier1_key_is_size_and_fp (md5M : List Nat → Nat) (ms : List FSFile)
    (k : Nat × Option Nat) (vs : List FSFile) (f : FSFile)
    (hkv : (k, vs) ∈ byFp md5M ms) (hf : f ∈ vs) :
    f.content.length = k.1 ∧ fpOf md5M f = k.2 ∧
    ∀ c : List Nat, (legacyHashBytes c).take (sizeBytes c.length).length = sizeBytes c.length := by
  have h := (byFp_key hkv hf).1
  refine ⟨?_, ?_, ?_⟩
  · rw [h]
  · rw [h]
  · intro c
    simp only [legacyHashBytes]
    exact List.take_left _ _

/-- C9 witness. -/
theorem c9_tier1_key_is_size_and_fp_witness :
    (plainFile "/r/a.txt" [1, 2, 3]).content.length = ((3 : Nat), some (29586 : Nat)).1 ∧
    fpOf natListCode (plainFile "/r/a.txt" [1, 2, 3]) = ((3 : Nat), some (29586 : Nat)).2 ∧
    (legacyHashBytes [7]).take (sizeBytes 1).length = sizeBytes 1 := by
  have h := c9_tier1_key_is_size_and_fp natListCode
    [plainFile "/r/a.txt" [1, 2, 3], plainFile "/r/b.txt" [1, 2, 3]]
    ((3 : Nat), some (29586 : Nat))
    [plainFile "/r/a.txt" [1, 2, 3], plainFile "/r/b.txt" [1, 2, 3]]
    (plainFile "/r/a.txt" [1, 2, 3]) (by decide) (by decide)
  exact ⟨h.1, h.2.1, h.2.2 [7]⟩

theorem fpOf_eq_none {md5M : List Nat → Nat} {f : FSFile} :
    fpOf md5M f = none ↔ f.sampledOk = false := by
  unfold fpOf
  cases h : f.sampledOk <;> simp

/-- C4 counterexample: two same-size files whose sampled fingerprints both
fail share the sentinel bucket `(size, "ERR")`; their stream hashes then
succeed and agree, so both appear in a DuplicateGroup -- a
fingerprint-failing file is not always dropped. -/
theorem c4_cex_err_bucket_files_form_group :
    ((dupGroupsOf natListCode natListCode
        [⟨"/r/e1", [5, 5], 0, true, true, false, true⟩,
         ⟨"/r/e2", [5, 5], 0, true, true, false, true⟩]).map (fun g => g.files) =
      [["/r/e1", "/r/e2"]]) ∧
    (⟨"/r/e1", [5, 5], 0, true, true, false, true⟩ : FSFile).sampledOk = false := by
  decide

/-- C4 (amended): a file whose sampled fingerprint fails goes into the
sentinel bucket keyed `(size, "ERR")`; it can be a member of a
DuplicateGroup only when that sentinel bucket itself has at least two
entries, i.e. every member of a digest group that contains a
fingerprint-failing file sits in an ERR bucket whose entries are all
same-size fingerprint failures -- a lone same-size fingerprint failure is
dropped. -/
theorem c4_err_bucket_needs_company (md5M shaM : List Nat → Nat) (ms : List FSFile)
    (m : FSFile) (hfail : m.sampledOk = false)
    (hmem : m ∈ survivors (shaGroups md5M shaM ms)) :
    ∃ vs, ((m.content.length, (none : Option Nat)), vs) ∈ byFp md5M ms ∧ m ∈ vs ∧
      2 ≤ vs.length ∧ ∀ x ∈ vs, x.content.length = m.content.length ∧ x.sampledOk = false := by
  rcases mem_survivors.1 hmem with ⟨k, vs0, hkv, hlen, hm⟩
  have hsub := (shaGroups_sound hkv hm).2
  rcases mem_survivors.1 hsub with ⟨k1, vs, hkv1, hlen1, hm1⟩
  have hk1 := (byFp_key hkv1 hm1).1
  have hfp : fpOf md5M m = none := fpOf_eq_none.2 hfail
  have hkey : k1 = (m.content.length, (none : Option Nat)) := by rw [hk1, hfp]
  refine ⟨vs, by rw [hkey] at hkv1; exact hkv1, hm1, hlen1, ?_⟩
  intro x hx
  have hx1 := (byFp_key hkv1 hx).1
  rw [hkey] at hx1
  have hcomp := Prod.mk.injEq .. |>.mp hx1.symm
  exact ⟨hcomp.1, fpOf_eq_none.1 hcomp.2⟩

/-- C4 witness. -/
theorem c4_err_bucket_needs_company_witness :
    ∃ vs, (((2 : Nat), (none : Option Nat)), vs) ∈
        byFp natListCode
          [⟨"/r/e1", [5, 5], 0, true, true, false, true⟩,
           ⟨"/r/e2", [5, 5], 0, true, true, false, true⟩] ∧
      (⟨"/r/e1", [5, 5], 0, true, true, false, true⟩ : FSFile) ∈ vs ∧
      2 ≤ vs.length ∧
      ∀ x ∈ vs,
        x.content.length = (⟨"/r/e1", [5, 5], 0, true, true, false, true⟩ : FSFile).content.length ∧
        x.sampledOk = false :=
  c4_err_bucket_needs_company natListCode natListCode
    [⟨"/r/e1", [5, 5], 0, true, true, false, true⟩,
     ⟨"/r/e2", [5, 5], 0, true, true, false, true⟩]
    ⟨"/r/e1", [5, 5], 0, true, true, false, true⟩ (by decide) (by decide)

theorem ite_some_eq {α : Type} {c : Prop} [Decidable c] {x r : α}
    (h : (if c then some x else none) = some r) : r = x := by
  split at h
  · exact (Option.some.inj h).symm
  · cases h

/-- C6 counterexample: a file whose bytes are gzip but whose name
`data.bin` carries neither a bio logical extension nor a compression
container extension is emitted as a mismatch (the code's bio filter also
accepts header GZIP/BGZF), contradicting the claimed emission condition. -/
theorem c6_cex_gzip_header_nonbio_name_emitted :
    (scan_directory natListCode natListCode false
        (dirFS [plainFile "/r/data.bin" [31, 139, 8, 0]]) timing0).map
        (fun r => r.mismatches) =
      Except.ok [{ path := "/r/data.bin", extension := "BIN", extension_container := ""
                 , extension_logical := "", header_type := "GZIP" }] ∧
    ¬ ("GZIP" ∈ BIO_LOGICAL) ∧ ¬ ("" ∈ BIO_LOGICAL) ∧ ¬ ("" ∈ BIO_CONTAINERS) := by
  decide

/-- C6 (amended): without `include_non_bio_mismatches`, every emitted
MismatchRecord satisfies at least one of: header_type is bio OR header_type
is a compression container (GZIP/BGZF) OR ext_logical is bio OR
ext_container is a compression container.  In particular a gzip-headed file
with a non-bio name is emitted via the header clause. -/
theorem c6_bio_filter_accepts_gzip_header (metas : List FileMeta) (r : Mismatch)
    (hr : r ∈ mismatchesOf metas false) :
    r.header_type ∈ BIO_LOGICAL ∨ r.header_type ∈ BIO_CONTAINERS ∨
    r.extension_logical ∈ BIO_LOGICAL ∨ r.extension_container ∈ BIO_CONTAINERS := by
  rcases List.mem_filterMap.1 hr with ⟨m, hm, hsome⟩
  simp only at hsome
  split at hsome
  · cases hsome
  · split at hsome
    · cases hsome
    · next hskip =>
      have hbio : (BIO_LOGICAL.contains (strUpper m.header_type)
          || BIO_CONTAINERS.contains (strUpper m.header_type)
          || (BIO_LOGICAL.contains (strUpper m.ext_logical)
              || BIO_CONTAINERS.contains (normContainer m.ext_container))) = true := by
        revert hskip
        cases hb : (BIO_LOGICAL.contains (strUpper m.header_type)
            || BIO_CONTAINERS.contains (strUpper m.header_type)
            || (BIO_LOGICAL.contains (strUpper m.ext_logical)
                || BIO_CONTAINERS.contains (normContainer m.ext_container))) <;> simp [hb]
      have hre := ite_some_eq hsome
      subst hre
      rcases Bool.or_eq_true .. |>.mp hbio with h | h
      · rcases Bool.or_eq_true .. |>.mp h with h2 | h2
        · exact Or.inl (List.elem_iff.mp h2)
        · exact Or.inr (Or.inl (List.elem_iff.mp h2))
      · rcases Bool.or_eq_true .. |>.mp h with h2 | h2
        · exact Or.inr (Or.inr (Or.inl (List.elem_iff.mp h2)))
        · exact Or.inr (Or.inr (Or.inr (List.elem_iff.mp h2)))

/-- C6 witness. -/
theorem c6_bio_filter_accepts_gzip_header_witness :
    ({ path := "/r/data.bin", extension := "BIN", extension_container := ""
     , extension_logical := "", header_type := "GZIP" } : Mismatch).header_type ∈ BIO_LOGICAL ∨
    ({ path := "/r/data.bin", extension := "BIN", extension_container := ""
     , extension_logical := "", header_type := "GZIP" } : Mismatch).header_type ∈ BIO_CONTAINERS ∨
    ({ path := "/r/data.bin", extension := "BIN", extension_container := ""
     , extension_logical := "", header_type := "GZIP" } : Mismatch).extension_logical ∈ BIO_LOGICAL ∨
    ({ path := "/r/data.bin", extension := "BIN", extension_container := ""
     , extension_logical := "", header_type := "GZIP" } : Mismatch).extension_container ∈ BIO_CONTAINERS :=
  c6_bio_filter_accepts_gzip_header [metaOf (plainFile "/r/data.bin" [31, 139, 8, 0])]
    { path := "/r/data.bin", extension := "BIN", extension_container := ""
    , extension_logical := "", header_type := "GZIP" }
    (by decide)

/-- C8 counterexample: a `.sra` file whose bytes begin with `@` sniffs as
FASTQ and is therefore counted among the group's FASTQs; rule 3 still emits
exactly one candidate, but it proposes deleting that file -- a FASTQ of the
group -- and even lists it in its own `depends_on`. -/
theorem c8_cex_sra_classified_as_fastq :
    rule3 [{ path := "/r/s1.sra", size := 2, header_type := "FASTQ", extension := "SRA"
           , extension_container := "", extension_logical := "" },
           { path := "/r/s1.fastq", size := 2, header_type := "FASTQ", extension := "FASTQ"
           , extension_container := "", extension_logical := "FASTQ" }] =
      [{ path := "/r/s1.sra"
       , reason := "SRA redundant when gzipped FASTQ is retained locally"
       , fidelity := "content-equivalent (tool-dependent container)"
       , depends_on := ["/r/s1.sra", "/r/s1.fastq"]
       , regen_cmd := "n/a (keep FASTQ as canonical raw layer)" }] ∧
    ({ path := "/r/s1.sra", size := 2, header_type := "FASTQ", extension := "SRA"
     , extension_container := "", extension_logical := "" } : FileRec) ∈
      fastqsOf [{ path := "/r/s1.sra", size := 2, header_type := "FASTQ", extension := "SRA"
                , extension_container := "", extension_logical := "" },
                { path := "/r/s1.fastq", size := 2, header_type := "FASTQ", extension := "FASTQ"
                , extension_container := "", extension_logical := "FASTQ" }] ∧
    bySample (filesOut ((walked (dirFS [plainFile "/r/s1.sra" [64, 65],
        plainFile "/r/s1.fastq" [64, 65]])).map metaOf)) =
      [("s1", [{ path := "/r/s1.sra", size := 2, header_type := "FASTQ", extension := "SRA"
               , extension_container := "", extension_logical := "" },
               { path := "/r/s1.fastq", size := 2, header_type := "FASTQ", extension := "FASTQ"
               , extension_container := "", extension_logical := "FASTQ" }])] := by
  decide

/-- C8 (amended): in a sample group with an SRA item and FASTQ items, where
no item is classified both ways (the code counts a file as FASTQ by header
or logical extension, so a `.sra` file with a FASTQ header would be both),
rule 3 under the default policy emits exactly one candidate: it deletes the
first SRA item, its `depends_on` lists exactly the group's FASTQ paths, and
the deleted item is not one of the group's FASTQs. -/
theorem c8_rule3_deletes_first_sra (items : List FileRec)
    (hsra : items.any isSra = true)
    (hfq : (fastqsOf items).isEmpty = false)
    (hdisj : ∀ x ∈ items, isSra x = true → hasKind x "FASTQ" = false) :
    ∃ sra, items.find? isSra = some sra ∧ isSra sra = true ∧ sra ∉ fastqsOf items ∧
      rule3 items =
        [{ path := sra.path
         , reason := "SRA redundant when gzipped FASTQ is retained locally"
         , fidelity := "content-equivalent (tool-dependent container)"
         , depends_on := (fastqsOf items).map (fun fq => fq.path)
         , regen_cmd := "n/a (keep FASTQ as canonical raw layer)" }] := by
  have hex : ∃ x, x ∈ items ∧ isSra x = true := by
    simpa using List.any_eq_true.mp hsra
  obtain ⟨sra, hfind⟩ := Option.isSome_iff_exists.mp (List.find?_isSome.mpr (by simpa using hex))
  have hsramem := List.mem_of_find?_eq_some hfind
  have hsratrue := List.find?_some hfind
  refine ⟨sra, hfind, hsratrue, ?_, ?_⟩
  · intro hcontra
    have h2 := (List.mem_filter.1 hcontra).2
    rw [hdisj sra hsramem hsratrue] at h2
    exact Bool.false_ne_true h2
  · unfold rule3
    rw [hsra, hfq, hfind]
    simp [PREFER_SRA_OVER_FASTQ]

/-- C8 witness: the spec's seed tree `{sample.sra, sample.fastq.gz}`. -/
theorem c8_rule3_deletes_first_sra_witness :
    ∃ sra,
      List.find? isSra
          [({ path := "/r/s1.sra", size := 4, header_type := "UNKNOWN", extension := "SRA"
            , extension_container := "", extension_logical := "" } : FileRec),
           { path := "/r/s1.fastq.gz", size := 4, header_type := "GZIP", extension := "FASTQ.GZ"
           , extension_container := "GZIP", extension_logical := "FASTQ" }] = some sra ∧
      isSra sra = true ∧
      sra ∉ fastqsOf
          [({ path := "/r/s1.sra", size := 4, header_type := "UNKNOWN", extension := "SRA"
            , extension_container := "", extension_logical := "" } : FileRec),
           { path := "/r/s1.fastq.gz", size := 4, header_type := "GZIP", extension := "FASTQ.GZ"
           , extension_container := "GZIP", extension_logical := "FASTQ" }] ∧
      rule3 [({ path := "/r/s1.sra", size := 4, header_type := "UNKNOWN", extension := "SRA"
              , extension_container := "", extension_logical := "" } : FileRec),
             { path := "/r/s1.fastq.gz", size := 4, header_type := "GZIP", extension := "FASTQ.GZ"
             , extension_container := "GZIP", extension_logical := "FASTQ" }] =
        [{ path := sra.path
         , reason := "SRA redundant when gzipped FASTQ is retained locally"
         , fidelity := "content-equivalent (tool-dependent container)"
         , depends_on := (fastqsOf
             [({ path := "/r/s1.sra", size := 4, header_type := "UNKNOWN", extension := "SRA"
               , extension_container := "", extension_logical := "" } : FileRec),
              { path := "/r/s1.fastq.gz", size := 4, header_type := "GZIP", extension := "FASTQ.GZ"
              , extension_container := "GZIP", extension_logical := "FASTQ" }]).map (fun fq => fq.path)
         , regen_cmd := "n/a (keep FASTQ as canonical raw layer)" }] :=
  c8_rule3_deletes_first_sra
    [{ path := "/r/s1.sra", size := 4, header_type := "UNKNOWN", extension := "SRA"
     , extension_container := "", extension_logical := "" },
     { path := "/r/s1.fastq.gz", size := 4, header_type := "GZIP", extension := "FASTQ.GZ"
     , extension_container := "GZIP", extension_logical := "FASTQ" }]
    (by decide) (by decide) (by decide)

theorem shaOf_eq_some {shaM : List Nat → Nat} {f : FSFile} {d : Nat}
    (h : shaOf shaM f = some d) : shaM f.content = d := by
  unfold shaOf at h
  split at h
  · exact Option.some.inj h
  · cases h

/-- C5 (confirmed, under collision-freeness of the streaming digest): every
DuplicateGroup of a report has `count` at least 2, exactly `count` member
paths, and a common member size `s` with `total_size = s * count`; every
member path belongs to a walked file whose streaming digest is the group's
`sha256`. -/
theorem c5_dup_group_invariants (md5M shaM : List Nat → Nat)
    (hinj : Function.Injective shaM) (inb : Bool) (fs : FileSystem) (t : TimingInput)
    (r : Report) (hr : scan_directory md5M shaM inb fs t = Except.ok r)
    (g : DupGroup) (hg : g ∈ r.duplicate_groups) :
    2 ≤ g.count ∧ g.files.length = g.count ∧
    ∃ s, g.total_size = s * g.count ∧
      ∀ p ∈ g.files, ∃ f ∈ walked fs, f.path = p ∧ f.content.length = s ∧
        shaOf shaM f = some g.sha256 := by
  obtain ⟨hex, hrm⟩ := scan_ok_iff.1 hr
  subst hrm
  rw [mkReport_dup_groups] at hg
  unfold dupGroupsOf at hg
  rw [mem_sortByLe] at hg
  rcases List.mem_map.1 hg with ⟨kv, hkv0, hgdef⟩
  rw [List.mem_filter] at hkv0
  obtain ⟨hkvmem, hlenb⟩ := hkv0
  have hlen : 2 ≤ kv.2.length := by simpa using hlenb
  have hkv : (kv.1, kv.2) ∈ shaGroups md5M shaM (walked fs) := by simpa using hkvmem
  subst hgdef
  refine ⟨hlen, by simp [length_sortByLe], ?_⟩
  rcases hv : kv.2 with _ | ⟨f0, rest⟩
  · rw [hv] at hlen
    simp at hlen
  · rw [hv] at hkv
    refine ⟨f0.content.length, ?_, ?_⟩
    · simp [hv, firstSize]
    · intro p hp
      rw [mem_sortByLe] at hp
      rcases List.mem_map.1 hp with ⟨f, hfmem, hfp⟩
      have hsha := shaGroups_sound hkv hfmem
      have hf0mem : f0 ∈ f0 :: rest := List.mem_cons_self _ _
      have hsha0 := shaGroups_sound hkv hf0mem
      have hlen_eq : f.content.length = f0.content.length := by
        have e1 := shaOf_eq_some hsha.1
        have e2 := shaOf_eq_some hsha0.1
        have hcc : f.content = f0.content := hinj (by rw [e1, e2])
        rw [hcc]
      exact ⟨f, survivors_byFp_sub hsha.2, hfp, hlen_eq, hsha.1⟩

/-- C5 witness: two identical 3-byte files form one group with count 2,
total_size 6 and equal member digests. -/
theorem c5_dup_group_invariants_witness :
    2 ≤ ({ sha256 := 29586, total_size := 6, count := 2
         , files := ["/r/a.txt", "/r/b.txt"] } : DupGroup).count ∧
    ({ sha256 := 29586, total_size := 6, count := 2
     , files := ["/r/a.txt", "/r/b.txt"] } : DupGroup).files.length =
      ({ sha256 := 29586, total_size := 6, count := 2
       , files := ["/r/a.txt", "/r/b.txt"] } : DupGroup).count ∧
    ∃ s, ({ sha256 := 29586, total_size := 6, count := 2
          , files := ["/r/a.txt", "/r/b.txt"] } : DupGroup).total_size =
        s * ({ sha256 := 29586, total_size := 6, count := 2
             , files := ["/r/a.txt", "/r/b.txt"] } : DupGroup).count ∧
      ∀ p ∈ ({ sha256 := 29586, total_size := 6, count := 2
             , files := ["/r/a.txt", "/r/b.txt"] } : DupGroup).files,
        ∃ f ∈ walked (dirFS [plainFile "/r/a.txt" [1, 2, 3], plainFile "/r/b.txt" [1, 2, 3]]),
          f.path = p ∧ f.content.length = s ∧
          shaOf natListCode f =
            some ({ sha256 := 29586, total_size := 6, count := 2
                  , files := ["/r/a.txt", "/r/b.txt"] } : DupGroup).sha256 :=
  c5_dup_group_invariants natListCode natListCode natListCode_injective false
    (dirFS [plainFile "/r/a.txt" [1, 2, 3], plainFile "/r/b.txt" [1, 2, 3]]) timing0
    { n_files := 2
    , stats := statsOf timing0
    , mismatches := []
    , files := [{ path := "/r/a.txt", size := 3, header_type := "UNKNOWN", extension := "TXT"
                , extension_container := "", extension_logical := "" },
                { path := "/r/b.txt", size := 3, header_type := "UNKNOWN", extension := "TXT"
                , extension_container := "", extension_logical := "" }]
    , duplicate_groups := [{ sha256 := 29586, total_size := 6, count := 2
                           , files := ["/r/a.txt", "/r/b.txt"] }]
    , erasable_candidates := [] }
    (by decide)
    { sha256 := 29586, total_size := 6, count := 2, files := ["/r/a.txt", "/r/b.txt"] }
    (by decide)

theorem mismatch_path_mem {metas : List FileMeta} {inb : Bool} {mm : Mismatch}
    (h : mm ∈ mismatchesOf metas inb) : ∃ m ∈ metas, mm.path = m.path := by
  rcases List.mem_filterMap.1 h with ⟨m, hm, hsome⟩
  simp only at hsome
  split at hsome
  · cases hsome
  · split at hsome
    · cases hsome
    · have hre := ite_some_eq hsome
      subst hre
      exact ⟨m, hm, rfl⟩

theorem rule1_path {items : List FileRec} {c : Candidate} (h : c ∈ rule1 items) :
    ∃ x ∈ items, c.path = x.path := by
  unfold rule1 at h
  split at h
  · rcases List.mem_filterMap.1 h with ⟨x, hx, hsome⟩
    have hxi : x ∈ items := (List.mem_filter.1 hx).1
    split at hsome
    · rcases Option.map_eq_some'.1 hsome with ⟨bam, hfind, hc⟩
      subst hc
      exact ⟨x, hxi, rfl⟩
    · rcases Option.map_eq_some'.1 hsome with ⟨cram, hfind, hc⟩
      subst hc
      exact ⟨x, hxi, rfl⟩
  · cases h

theorem rule2_path {items : List FileRec} {c : Candidate} (h : c ∈ rule2 items) :
    ∃ x ∈ items, c.path = x.path := by
  unfold rule2 at h
  split at h
  · split at h
    · rcases List.mem_map.1 h with ⟨b, hb, hc⟩
      subst hc
      exact ⟨b, (List.mem_filter.1 hb).1, rfl⟩
    · cases h
  · cases h

theorem rule3_path {items : List FileRec} {c : Candidate} (h : c ∈ rule3 items) :
    ∃ x ∈ items, c.path = x.path := by
  unfold rule3 at h
  split at h
  · simp only [PREFER_SRA_OVER_FASTQ, Bool.false_eq_true, if_false] at h
    split at h
    · next sra hfind =>
      rw [List.mem_singleton] at h
      subst h
      exact ⟨sra, List.mem_of_find?_eq_some hfind, rfl⟩
    · cases h
  · cases h

theorem rule4_path {items : List FileRec} {c : Candidate} (h : c ∈ rule4 items) :
    ∃ x ∈ items, c.path = x.path := by
  unfold rule4 at h
  split at h
  · rcases List.mem_map.1 h with ⟨tfq, htf, hc⟩
    subst hc
    have h1 : tfq ∈ fastqsOf items := (List.mem_filter.1 htf).1
    exact ⟨tfq, (List.mem_filter.1 h1).1, rfl⟩
  · cases h

theorem rulesForGroup_path {items : List FileRec} {c : Candidate}
    (h : c ∈ rulesForGroup items) : ∃ x ∈ items, c.path = x.path := by
  unfold rulesForGroup at h
  rcases List.mem_append.1 h with h123 | h4
  · rcases List.mem_append.1 h123 with h12 | h3
    · rcases List.mem_append.1 h12 with h1 | h2
      · exact rule1_path h1
      · exact rule2_path h2
    · exact rule3_path h3
  · exact rule4_path h4

theorem erasable_path {recs : List FileRec} {c : Candidate} (h : c ∈ erasableOf recs) :
    ∃ x ∈ recs, c.path = x.path := by
  rcases List.mem_flatMap.1 h with ⟨kv, hkv, hc⟩
  rcases rulesForGroup_path hc with ⟨x, hxm, hxp⟩
  have hkv2 : (kv.1, kv.2) ∈ bySample recs := by simpa using hkv
  have hpair := groupPairs_sound hkv2 hxm
  rcases List.mem_map.1 hpair with ⟨rcd, hrcd, heq⟩
  have hx : x = rcd := (congrArg Prod.snd heq).symm
  exact ⟨rcd, hrcd, hx ▸ hxp⟩

theorem dupGroup_member_source {md5M shaM : List Nat → Nat} {ms : List FSFile} {g : DupGroup}
    (hg : g ∈ dupGroupsOf md5M shaM ms) {p : String} (hp : p ∈ g.files) :
    ∃ f ∈ ms, f.path = p := by
  unfold dupGroupsOf at hg
  rw [mem_sortByLe] at hg
  rcases List.mem_map.1 hg with ⟨kv, hkv0, hgdef⟩
  rw [List.mem_filter] at hkv0
  have hkv : (kv.1, kv.2) ∈ shaGroups md5M shaM ms := by simpa using hkv0.1
  subst hgdef
  rw [mem_sortByLe] at hp
  rcases List.mem_map.1 hp with ⟨f, hf, hfp⟩
  exact ⟨f, survivors_byFp_sub (shaGroups_sound hkv hf).2, hfp⟩

/-- C10 (confirmed): every path mentioned by a MismatchRecord, a
DuplicateGroup member list, or an ErasableCandidate's `path` field also
appears as the path of an entry of the same report's `files[]` list. -/
theorem c10_report_closure (md5M shaM : List Nat → Nat) (inb : Bool) (fs : FileSystem)
    (t : TimingInput) (r : Report) (hr : scan_directory md5M shaM inb fs t = Except.ok r) :
    (∀ mm ∈ r.mismatches, mm.path ∈ r.files.map (fun rec => rec.path)) ∧
    (∀ g ∈ r.duplicate_groups, ∀ p ∈ g.files, p ∈ r.files.map (fun rec => rec.path)) ∧
    (∀ c ∈ r.erasable_candidates, c.path ∈ r.files.map (fun rec => rec.path)) := by
  obtain ⟨hex, hrm⟩ := scan_ok_iff.1 hr
  subst hrm
  rw [mkReport_files, mkReport_mismatches, mkReport_dup_groups, mkReport_erasable]
  have hpaths : ∀ q : String, (∃ f ∈ walked fs, f.path = q) →
      q ∈ (filesOut ((walked fs).map metaOf)).map (fun rec => rec.path) := by
    rintro q ⟨f, hf, hq⟩
    simp only [filesOut, List.map_map, List.mem_map, Function.comp]
    exact ⟨f, hf, by simp [toFileRec, metaOf, hq]⟩
  refine ⟨?_, ?_, ?_⟩
  · intro mm hmm
    rcases mismatch_path_mem hmm with ⟨m, hm, hpath⟩
    rcases List.mem_map.1 hm with ⟨f, hf, hmf⟩
    subst hmf
    exact hpaths _ ⟨f, hf, hpath.symm ▸ rfl⟩
  · intro g hg p hp
    exact hpaths _ (dupGroup_member_source hg hp)
  · intro c hc
    rcases erasable_path hc with ⟨x, hx, hpath⟩
    rcases List.mem_map.1 hx with ⟨m, hm, hmx⟩
    rcases List.mem_map.1 hm with ⟨f, hf, hmf⟩
    subst hmx
    subst hmf
    exact hpaths _ ⟨f, hf, hpath.symm⟩

/-- C10 witness: a tree with a mismatch, a duplicate group and an erasable
candidate; all referenced paths are among the two listed files. -/
theorem c10_report_closure_witness :
    (∀ mm ∈ [({ path := "/r/s1.sra", extension := "SRA", extension_container := ""
              , extension_logical := "", header_type := "FASTQ" } : Mismatch)],
       mm.path ∈ ["/r/s1.sra", "/r/s1.fastq"]) ∧
    (∀ g ∈ [({ sha256 := 18412746, total_size := 4, count := 2
             , files := ["/r/s1.fastq", "/r/s1.sra"] } : DupGroup)],
       ∀ p ∈ g.files, p ∈ ["/r/s1.sra", "/r/s1.fastq"]) ∧
    (∀ c ∈ [({ path := "/r/s1.sra"
             , reason := "SRA redundant when gzipped FASTQ is retained locally"
             , fidelity := "content-equivalent (tool-dependent container)"
             , depends_on := ["/r/s1.sra", "/r/s1.fastq"]
             , regen_cmd := "n/a (keep FASTQ as canonical raw layer)" } : Candidate)],
       c.path ∈ ["/r/s1.sra", "/r/s1.fastq"]) :=
  c10_report_closure natListCode natListCode false
    (dirFS [plainFile "/r/s1.sra" [64, 65], plainFile "/r/s1.fastq" [64, 65]]) timing0
    { n_files := 2
    , stats := statsOf timing0
    , mismatches := [{ path := "/r/s1.sra", extension := "SRA", extension_container := ""
                     , extension_logical := "", header_type := "FASTQ" }]
    , files := [{ path := "/r/s1.sra", size := 2, header_type := "FASTQ", extension := "SRA"
                , extension_container := "", extension_logical := "" },
                { path := "/r/s1.fastq", size := 2, header_type := "FASTQ", extension := "FASTQ"
                , extension_container := "", extension_logical := "FASTQ" }]
    , duplicate_groups := [{ sha256 := 18412746, total_size := 4, count := 2
                           , files := ["/r/s1.fastq", "/r/s1.sra"] }]
    , erasable_candidates := [{ path := "/r/s1.sra"
                              , reason := "SRA redundant when gzipped FASTQ is retained locally"
                              , fidelity := "content-equivalent (tool-dependent container)"
                              , depends_on := ["/r/s1.sra", "/r/s1.fastq"]
                              , regen_cmd := "n/a (keep FASTQ as canonical raw layer)" }] }
    (by decide)
